import Mathlib

/-!
Shallow embedding of the request server and inventory core of
`Cinema-Server-Side.py` (Cinema Ticketing System).

The SQLite tables `movies` and `sales` are modelled as Lean lists carried in a
`Store` record together with the AUTOINCREMENT counters.  Because both tables
use `INTEGER PRIMARY KEY AUTOINCREMENT`, the rowid of each row equals its `id`,
a fresh id is strictly greater than every id ever used, and a full-table
`SELECT` without `ORDER BY` (as in `list_movies`) returns rows in rowid order;
the list in `Store.movies` is kept in exactly that table order, so listing
returns the list as is.

`REAL` columns (`ticket_price`, `total`) are modelled as `Rat`; no claim in
scope depends on floating-point rounding.  `datetime.now()` is not modellable,
so the current-time string is a parameter of `sell_tickets`.

Python `int(...)` / `float(...)` coercions and `payload["k"]` key accesses can
raise; a handler payload therefore carries `Option`-valued fields, `none`
meaning the corresponding access or conversion raised (the handler's
`except Exception` then returns an error response; the exception text varies
and is modelled by a fixed placeholder message, which no claim inspects).
-/

structure Movie where
  id : Int
  title : String
  cinema_room : Int
  release_date : String
  end_date : String
  tickets_available : Int
  ticket_price : Rat
deriving DecidableEq

structure Sale where
  id : Int
  movie_id : Int
  customer_name : String
  number_of_tickets : Int
  total : Rat
  sale_time : String
deriving DecidableEq

/-- The database state: the two tables plus their AUTOINCREMENT counters. -/
structure Store where
  movies : List Movie
  next_movie_id : Int
  sales : List Sale
  next_sale_id : Int
deriving DecidableEq

/-- Summary object placed in the `sale` key of a successful sell response. -/
structure SaleSummary where
  movie_id : Int
  title : String
  customer : String
  tickets : Int
  total : Rat
deriving DecidableEq

/-- A JSON response object.  `status` is `"ok"` for the three `ok*`
constructors and `"error"` for `error`; the payload keys follow the code
(`list_movies` carries `movies`, a successful sell carries `message`, `sale`
and `receipt`, the other successes carry only `message`). -/
inductive Resp where
  | okMsg (message : String)
  | okMovies (movies : List Movie)
  | okSale (message : String) (sale : SaleSummary) (receipt : String)
  | error (message : String)
deriving DecidableEq

/-- `status == "ok"` of a response. -/
def Resp.isOk : Resp → Bool
  | .error _ => false
  | _ => true

/-- The `message` field of a response (`""` for `list_movies`, which has
none). -/
def Resp.message : Resp → String
  | .okMsg m => m
  | .okMovies _ => ""
  | .okSale m _ _ => m
  | .error m => m

/-- Store well-formedness, maintained by AUTOINCREMENT primary keys: the
`movies` table order (= rowid order) is strictly ascending in `id`, and every
present id is below the next id to be assigned. -/
def Store.WF (st : Store) : Prop :=
  st.movies.Pairwise (fun a b => a.id < b.id) ∧
  ∀ m ∈ st.movies, m.id < st.next_movie_id

/-- The inventory invariant of the spec's data model: every movie's
`tickets_available` is non-negative. -/
def Store.NonNeg (st : Store) : Prop :=
  ∀ m ∈ st.movies, 0 ≤ m.tickets_available

instance (st : Store) : Decidable st.WF := by
  unfold Store.WF; infer_instance

instance (st : Store) : Decidable st.NonNeg := by
  unfold Store.NonNeg; infer_instance

/-! ## Business logic handlers -/

/-- `list_movies()`: `SELECT id, title, cinema_room, release_date, end_date,
tickets_available, ticket_price FROM movies` (no `ORDER BY`: rowid = id order,
i.e. the table order carried by `Store.movies`), then one record per row with
exactly those seven keys; always replies `{"status": "ok", "movies": ...}`. -/
def list_movies (st : Store) : Resp × Store :=
  (.okMovies st.movies, st)

/-- Payload of `add_movie` after the Python accesses/coercions:
`payload["title"]`, `int(payload["cinema_room"])`,
`payload.get("release_date", "")`, `payload.get("end_date", "")`,
`int(payload["tickets_available"])`, `float(payload["ticket_price"])`.
`none` = that access or conversion raised. -/
structure AddPayload where
  title : Option String
  cinema_room : Option Int
  release_date : String
  end_date : String
  tickets_available : Option Int
  ticket_price : Option Rat
deriving DecidableEq

/-- `add_movie(payload)`: INSERT with a fresh AUTOINCREMENT id; on any raised
exception the `except` arm returns an error response and nothing was
committed.  No sign checks are performed on any field.  The success response
is only `{"status": "ok", "message": "Movie added"}`. -/
def add_movie (p : AddPayload) (st : Store) : Resp × Store :=
  match p.title, p.cinema_room, p.tickets_available, p.ticket_price with
  | some title, some room, some tickets, some price =>
      let m : Movie :=
        ⟨st.next_movie_id, title, room, p.release_date, p.end_date, tickets, price⟩
      (.okMsg "Movie added",
       { st with movies := st.movies ++ [m], next_movie_id := st.next_movie_id + 1 })
  | _, _, _, _ => (.error "invalid request field", st)

/-- Payload of `update_movie`; same accesses as `add_movie` plus
`int(payload["id"])`. -/
structure UpdPayload where
  id : Option Int
  title : Option String
  cinema_room : Option Int
  release_date : String
  end_date : String
  tickets_available : Option Int
  ticket_price : Option Rat
deriving DecidableEq

/-- `update_movie(payload)`: `UPDATE movies SET ... WHERE id=?`; rowcount 0
(no row with that id) yields the "Movie id not found" error, otherwise every
mutable field of the matching row is replaced.  No sign checks. -/
def update_movie (p : UpdPayload) (st : Store) : Resp × Store :=
  match p.id, p.title, p.cinema_room, p.tickets_available, p.ticket_price with
  | some id, some title, some room, some tickets, some price =>
      if st.movies.any (fun m => m.id == id) then
        (.okMsg "Movie updated",
         { st with movies := st.movies.map (fun m =>
             if m.id == id then
               { m with title := title, cinema_room := room,
                        release_date := p.release_date, end_date := p.end_date,
                        tickets_available := tickets, ticket_price := price }
             else m) })
      else (.error "Movie id not found", st)
  | _, _, _, _, _ => (.error "invalid request field", st)

/-- Payload of `delete_movie`: `int(payload["id"])`. -/
structure DelPayload where
  id : Option Int
deriving DecidableEq

/-- `delete_movie(payload)`: `DELETE FROM movies WHERE id=?`; rowcount 0
yields the "Movie id not found" error. -/
def delete_movie (p : DelPayload) (st : Store) : Resp × Store :=
  match p.id with
  | some id =>
      if st.movies.any (fun m => m.id == id) then
        (.okMsg "Movie deleted",
         { st with movies := st.movies.filter (fun m => !(m.id == id)) })
      else (.error "Movie id not found", st)
  | none => (.error "invalid request field", st)

/-- Payload of `sell_tickets`: `int(payload["movie_id"])`,
`payload["customer_name"]`, `int(payload["number_of_tickets"])`. -/
structure SellPayload where
  movie_id : Option Int
  customer_name : Option String
  number_of_tickets : Option Int
deriving DecidableEq

/-- `sell_tickets(payload)`.  `now` stands for `datetime.now()` rendered as a
string.  All statements between the availability check and `conn.commit()`
(the sale INSERT and the inventory UPDATE) run inside one uncommitted SQLite
transaction; `commitOk = false` models any of them (or the commit itself)
raising, in which case the `except` arm answers with an error response and the
uncommitted transaction is rolled back, leaving the store unchanged. -/
def sell_tickets (p : SellPayload) (now : String) (commitOk : Bool)
    (st : Store) : Resp × Store :=
  match p.movie_id, p.customer_name, p.number_of_tickets with
  | some movie_id, some name, some requested =>
    if requested ≤ 0 then (.error "Requested tickets must be > 0", st)
    else
      match st.movies.find? (fun m => m.id == movie_id) with
      | none => (.error "Movie not found", st)
      | some m =>
        if m.tickets_available < requested then
          (.error ("Not enough tickets (available " ++
                   toString m.tickets_available ++ ")"), st)
        else if commitOk then
          let total : Rat := (requested : Rat) * m.ticket_price
          let sale : Sale := ⟨st.next_sale_id, movie_id, name, requested, total, now⟩
          (.okSale "Tickets sold"
             ⟨movie_id, m.title, name, requested, total⟩
             ("server_receipts/receipt_" ++ now ++ "_" ++ toString movie_id ++ ".txt"),
           { st with
             movies := st.movies.map (fun x =>
               if x.id == movie_id then
                 { x with tickets_available := x.tickets_available - requested }
               else x),
             sales := st.sales ++ [sale],
             next_sale_id := st.next_sale_id + 1 })
        else (.error "transaction aborted before commit", st)
  | _, _, _ => (.error "invalid request field", st)

/-! ## JSON values, dispatcher and connection handler -/

/-- A decoded JSON document, as produced by `json.loads`.  JSON numbers that
are integers decode to Python `int` (`jint`); other numbers to `float`
(`jnum`, modelled as `Rat`). -/
inductive JVal where
  | jnull
  | jbool (b : Bool)
  | jint (n : Int)
  | jnum (q : Rat)
  | jstr (s : String)
  | jarr (elems : List JVal)
  | jobj (fields : List (String × JVal))

/-- Python truthiness of a decoded JSON value (`if not req` in
`client_thread` takes the error arm exactly when this is `false`):
`None`, `False`, `0`, `0.0`, `""`, `[]` and `{}` are falsy. -/
def JVal.truthy : JVal → Bool
  | .jnull => false
  | .jbool b => b
  | .jint n => n != 0
  | .jnum q => q != 0
  | .jstr s => !(s == "")
  | .jarr l => !l.isEmpty
  | .jobj f => !f.isEmpty

/-- `obj.get(k)` / `obj[k]` on a decoded JSON object. -/
def objGet (fields : List (String × JVal)) (k : String) : Option JVal :=
  (fields.find? (fun kv => kv.1 == k)).map (fun kv => kv.2)

/-- Python `int(v)` on a decoded JSON value: `none` = raises.  `int` of a
float truncates toward zero; `int` of a bool is 0/1; `int` of a string parses
an optional sign plus decimal digits (the common cases; exotic forms such as
underscores are outside the requests in scope). -/
def pyInt : JVal → Option Int
  | .jint n => some n
  | .jnum q => some (if q < 0 then q.ceil else q.floor)
  | .jbool b => some (if b then 1 else 0)
  | .jstr s => s.toInt?
  | _ => none

/-- Python `float(v)` on a decoded JSON value: `none` = raises.  String
parsing is modelled for integer literals only; no request in scope passes a
decimal-point string. -/
def pyFloat : JVal → Option Rat
  | .jint n => some (n : Rat)
  | .jnum q => some q
  | .jbool b => some (if b then 1 else 0)
  | .jstr s => (s.toInt?).map (fun n => (n : Rat))
  | _ => none

/-- `int(payload[k])`: `none` when the key is missing or the conversion
raises. -/
def getInt (fields : List (String × JVal)) (k : String) : Option Int :=
  (objGet fields k).bind pyInt

/-- `float(payload[k])`. -/
def getFloat (fields : List (String × JVal)) (k : String) : Option Rat :=
  (objGet fields k).bind pyFloat

/-- `payload[k]` used as a text value.  The code passes the raw value to
SQLite; requests in scope send strings here, so only `jstr` is modelled as
succeeding. -/
def getStr (fields : List (String × JVal)) (k : String) : Option String :=
  match objGet fields k with
  | some (.jstr s) => some s
  | _ => none

/-- `payload.get(k, "")` used as a text value (dates): missing key defaults
to `""`; requests in scope send strings when present. -/
def getStrD (fields : List (String × JVal)) (k : String) : String :=
  match objGet fields k with
  | some (.jstr s) => s
  | _ => ""

/-- Assemble the `add_movie` payload accesses from a decoded JSON object. -/
def buildAdd (fields : List (String × JVal)) : AddPayload :=
  ⟨getStr fields "title", getInt fields "cinema_room",
   getStrD fields "release_date", getStrD fields "end_date",
   getInt fields "tickets_available", getFloat fields "ticket_price"⟩

/-- Assemble the `update_movie` payload accesses. -/
def buildUpd (fields : List (String × JVal)) : UpdPayload :=
  ⟨getInt fields "id", getStr fields "title", getInt fields "cinema_room",
   getStrD fields "release_date", getStrD fields "end_date",
   getInt fields "tickets_available", getFloat fields "ticket_price"⟩

/-- Assemble the `delete_movie` payload accesses. -/
def buildDel (fields : List (String × JVal)) : DelPayload :=
  ⟨getInt fields "id"⟩

/-- Assemble the `sell` payload accesses. -/
def buildSell (fields : List (String × JVal)) : SellPayload :=
  ⟨getInt fields "movie_id", getStr fields "customer_name",
   getInt fields "number_of_tickets"⟩

/-- `handle_request(obj)`: dispatch on `obj.get("action")`.  A non-object
request has no `.get` attribute, so the resulting `AttributeError` escapes to
`client_thread`'s `except` arm, which answers with an error response (the
store is untouched); an object whose `action` value is not one of the five
known strings falls through to `{"status": "error", "message": "Unknown
action"}`. -/
def handle_request (v : JVal) (now : String) (commitOk : Bool)
    (st : Store) : Resp × Store :=
  match v with
  | .jobj fields =>
    match objGet fields "action" with
    | some (.jstr "list_movies") => list_movies st
    | some (.jstr "add_movie") => add_movie (buildAdd fields) st
    | some (.jstr "update_movie") => update_movie (buildUpd fields) st
    | some (.jstr "delete_movie") => delete_movie (buildDel fields) st
    | some (.jstr "sell") => sell_tickets (buildSell fields) now commitOk st
    | _ => (.error "Unknown action", st)
  | _ => (.error "request object has no attribute get", st)

/-- `client_thread` after `recv_json` returned: `none` is a framing/parse
failure (`recv_json` returned `None`); `if not req` routes every falsy value
to the "Invalid or empty request" response without calling
`handle_request`. -/
def client_step (recvd : Option JVal) (now : String) (commitOk : Bool)
    (st : Store) : Resp × Store :=
  match recvd with
  | none => (.error "Invalid or empty request", st)
  | some v =>
      if v.truthy then handle_request v now commitOk st
      else (.error "Invalid or empty request", st)

/-! ## Sequences of sales -/

/-- A fully-typed sell request (all accesses/conversions succeed), used to
state properties of sequences of sales. -/
structure SellReq where
  movie_id : Int
  customer_name : String
  number_of_tickets : Int
deriving DecidableEq

/-- One committed `sell_tickets` call from a typed request. -/
def sellT (r : SellReq) (now : String) (st : Store) : Resp × Store :=
  sell_tickets ⟨some r.movie_id, some r.customer_name, some r.number_of_tickets⟩
    now true st

/-- Run a sequence of sell requests, collecting the responses. -/
def runSells (rs : List SellReq) (now : String) (st : Store) :
    List Resp × Store :=
  match rs with
  | [] => ([], st)
  | r :: rest =>
      let out := sellT r now st
      let outs := runSells rest now out.2
      (out.1 :: outs.1, outs.2)

/-- Total tickets of the accepted (status-ok) sales in a request/response
trace. -/
def acceptedTickets : List (SellReq × Resp) → Int
  | [] => 0
  | (r, resp) :: rest =>
      (if resp.isOk then r.number_of_tickets else 0) + acceptedTickets rest

/-- `s` contains `t` as a substring. -/
def strContains (s t : String) : Prop :=
  ∃ a b, s = a ++ t ++ b

/-- The store after `init_db` seeds an empty database (first two sample
rows suffice for concrete checks). -/
def sampleStore : Store :=
  { movies := [⟨1, "The Matrix", 1, "2025-06-01", "2025-06-30", 100, 120⟩,
               ⟨2, "The One", 2, "2025-06-01", "2025-06-30", 100, 120⟩],
    next_movie_id := 3, sales := [], next_sale_id := 1 }

/-! ## Helper lemmas -/

theorem Store.WF.sorted {st : Store} (h : st.WF) :
    st.movies.Pairwise (fun a b => a.id < b.id) := h.1

theorem Store.WF.bounded {st : Store} (h : st.WF) :
    ∀ m ∈ st.movies, m.id < st.next_movie_id := h.2

/-- In an id-sorted movie list, two members with the same id are the same
row. -/
theorem unique_match {l : List Movie}
    (hp : l.Pairwise (fun a b => a.id < b.id)) {m : Movie} (hm : m ∈ l) :
    ∀ x ∈ l, x.id = m.id → x = m := by
  induction l with
  | nil => cases hm
  | cons a t ih =>
    rcases List.pairwise_cons.mp hp with ⟨ha, ht⟩
    intro x hx hid
    rcases List.mem_cons.mp hm with hm1 | hm2 <;>
      rcases List.mem_cons.mp hx with hx1 | hx2
    · rw [hx1, hm1]
    · exact absurd hid (by rw [hm1]; exact (ne_of_lt (ha x hx2)).symm)
    · exact absurd hid (by rw [hx1]; exact ne_of_lt (ha m hm2))
    · exact ih ht hm2 x hx2 hid

/-- `find?` commutes with a `map` whose function preserves the predicate. -/
theorem find?_map_comm {l : List Movie} {p : Movie → Bool} {f : Movie → Movie}
    (h : ∀ x, p (f x) = p x) : (l.map f).find? p = (l.find? p).map f := by
  induction l with
  | nil => rfl
  | cons a t ih =>
    cases hpa : p a with
    | true =>
      have hfa : p (f a) = true := by rw [h a]; exact hpa
      rw [List.map_cons, List.find?_cons_of_pos _ hfa,
          List.find?_cons_of_pos _ hpa]
      rfl
    | false =>
      have hfa : p (f a) = false := by rw [h a]; exact hpa
      rw [List.map_cons, List.find?_cons_of_neg _ (by simp [hfa]),
          List.find?_cons_of_neg _ (by simp [hpa]), ih]

/-- A map that rewrites only rows with a given id leaves a list without that
id unchanged. -/
theorem map_untouched {l : List Movie} {i : Int}
    (h : ∀ m ∈ l, m.id ≠ i) (f : Movie → Movie) :
    l.map (fun m => if m.id == i then f m else m) = l := by
  induction l with
  | nil => rfl
  | cons a t ih =>
    have ha : (a.id == i) = false := by
      simp [h a (List.mem_cons_self a t)]
    simp only [List.map_cons, ha, Bool.false_eq_true, if_false]
    rw [ih (fun m hm => h m (List.mem_cons_of_mem a hm))]

/-- A filter that removes only rows with a given id leaves a list without
that id unchanged. -/
theorem filter_untouched {l : List Movie} {i : Int}
    (h : ∀ m ∈ l, m.id ≠ i) :
    l.filter (fun m => !(m.id == i)) = l := by
  induction l with
  | nil => rfl
  | cons a t ih =>
    have ha : (a.id == i) = false := by
      simp [h a (List.mem_cons_self a t)]
    simp only [List.filter_cons, ha, Bool.not_false, if_true]
    rw [ih (fun m hm => h m (List.mem_cons_of_mem a hm))]

/-! ## Claims -/

/-- C4.  `list_movies` always succeeds, returning exactly the store's movie
table — each record a full `Movie` row with the seven selected fields — and
on a well-formed store (AUTOINCREMENT ids) that table is strictly ascending
in id. -/
theorem list_movies_sorted_total (st : Store) (h : st.WF) :
    list_movies st = (.okMovies st.movies, st) ∧
    ((list_movies st).1).isOk = true ∧
    st.movies.Pairwise (fun a b => a.id < b.id) :=
  ⟨rfl, rfl, h.sorted⟩

/-- Witness for `list_movies_sorted_total` on the seeded store. -/
theorem list_movies_sorted_total_witness :
    list_movies sampleStore = (.okMovies sampleStore.movies, sampleStore) ∧
    ((list_movies sampleStore).1).isOk = true ∧
    sampleStore.movies.Pairwise (fun a b => a.id < b.id) :=
  list_movies_sorted_total sampleStore (by decide)

/-- C5.  The sale transaction is atomic: every `sell_tickets` call either
answers with an error and leaves the store exactly as it was (all
validation/lookup/availability failures, and any pre-commit failure,
`commitOk = false`), or answers ok and both the ledger append and the
inventory decrement are present in the new store. -/
theorem sale_transaction_atomic (p : SellPayload) (now : String) (c : Bool)
    (st : Store) :
    ((sell_tickets p now c st).1.isOk = false ∧
      (sell_tickets p now c st).2 = st) ∨
    ((sell_tickets p now c st).1.isOk = true ∧
      ∃ mid nm n m,
        st.movies.find? (fun x => x.id == mid) = some m ∧
        0 < n ∧ n ≤ m.tickets_available ∧
        (sell_tickets p now c st).2.sales =
          st.sales ++
            [⟨st.next_sale_id, mid, nm, n, (n : Rat) * m.ticket_price, now⟩] ∧
        (sell_tickets p now c st).2.movies =
          st.movies.map (fun x =>
            if x.id == mid then
              { x with tickets_available := x.tickets_available - n }
            else x)) := by
  obtain ⟨f1, f2, f3⟩ := p
  cases f1 with
  | none => left; exact ⟨rfl, rfl⟩
  | some mid =>
    cases f2 with
    | none => left; exact ⟨rfl, rfl⟩
    | some nm =>
      cases f3 with
      | none => left; exact ⟨rfl, rfl⟩
      | some n =>
        by_cases h1 : n ≤ 0
        · left; constructor <;> simp [sell_tickets, h1, Resp.isOk]
        · rcases hfind : st.movies.find? (fun x => x.id == mid) with _ | m
          · left; constructor <;> simp [sell_tickets, h1, hfind, Resp.isOk]
          · by_cases h2 : m.tickets_available < n
            · left; constructor <;>
                simp [sell_tickets, h1, hfind, h2, Resp.isOk]
            · cases c with
              | false =>
                left; constructor <;>
                  simp [sell_tickets, h1, hfind, h2, Resp.isOk]
              | true =>
                right
                refine ⟨by simp [sell_tickets, h1, hfind, h2, Resp.isOk],
                        mid, nm, n, m, hfind, by omega, by omega, ?_, ?_⟩ <;>
                  simp [sell_tickets, h1, hfind, h2]

/-- C6.  A sell request with a non-positive ticket count fails with the
validation error before any inventory access, leaving the store unchanged. -/
theorem sell_nonpositive_validation (st : Store) (now : String) (c : Bool)
    (mid n : Int) (nm : String) (h : n ≤ 0) :
    sell_tickets ⟨some mid, some nm, some n⟩ now c st =
      (.error "Requested tickets must be > 0", st) := by
  simp [sell_tickets, h]

/-- Witness for `sell_nonpositive_validation`: zero tickets of movie 1. -/
theorem sell_nonpositive_validation_witness :
    sell_tickets ⟨some 1, some "Ada", some 0⟩ "t" true sampleStore =
      (.error "Requested tickets must be > 0", sampleStore) :=
  sell_nonpositive_validation sampleStore "t" true 1 0 "Ada" (by decide)

/-- C7.  When the movie exists with a (data-model) non-negative availability
and more tickets are requested than available, the sell fails with the
insufficient-inventory error, whose message contains the current availability
count, and the store is unchanged. -/
theorem sell_insufficient_message (st : Store) (now : String) (c : Bool)
    (mid n : Int) (nm : String) (m : Movie)
    (hfind : st.movies.find? (fun x => x.id == mid) = some m)
    (hnn : 0 ≤ m.tickets_available)
    (hlt : m.tickets_available < n) :
    sell_tickets ⟨some mid, some nm, some n⟩ now c st =
      (.error ("Not enough tickets (available " ++
               toString m.tickets_available ++ ")"), st) ∧
    strContains
      (Resp.message (sell_tickets ⟨some mid, some nm, some n⟩ now c st).1)
      (toString m.tickets_available) := by
  have h1 : ¬ n ≤ 0 := by omega
  have heq : sell_tickets ⟨some mid, some nm, some n⟩ now c st =
      (.error ("Not enough tickets (available " ++
               toString m.tickets_available ++ ")"), st) := by
    simp [sell_tickets, h1, hfind, hlt]
  exact ⟨heq, by
    rw [heq]
    exact ⟨"Not enough tickets (available ", ")", rfl⟩⟩

/-- Witness for `sell_insufficient_message`: 999999 tickets of a movie with
availability 100. -/
theorem sell_insufficient_message_witness :
    sell_tickets ⟨some 1, some "Ada", some 999999⟩ "t" true sampleStore =
      (.error ("Not enough tickets (available " ++ toString (100 : Int) ++ ")"),
       sampleStore) ∧
    strContains
      (Resp.message
        (sell_tickets ⟨some 1, some "Ada", some 999999⟩ "t" true sampleStore).1)
      (toString (100 : Int)) :=
  sell_insufficient_message sampleStore "t" true 1 999999 "Ada"
    ⟨1, "The Matrix", 1, "2025-06-01", "2025-06-30", 100, 120⟩
    (by decide) (by decide) (by decide)

/-- C10.  Every request decoding to a Python-falsy JSON value (`{}`, `0`,
`false`, `null`, `""`, `[]`) is answered with the "Invalid or empty request"
error by the connection handler without reaching the dispatcher — even though
the dispatcher itself would classify `{}` as an unknown action. -/
theorem falsy_request_rejected (st : Store) (now : String) (c : Bool) :
    (∀ v : JVal, v.truthy = false →
        client_step (some v) now c st =
          (.error "Invalid or empty request", st)) ∧
    client_step none now c st = (.error "Invalid or empty request", st) ∧
    handle_request (.jobj []) now c st = (.error "Unknown action", st) := by
  refine ⟨fun v hv => ?_, rfl, rfl⟩
  simp [client_step, hv]

/-- Witness for `falsy_request_rejected`: the empty JSON object. -/
theorem falsy_request_rejected_witness :
    client_step (some (JVal.jobj [])) "t" true sampleStore =
      (.error "Invalid or empty request", sampleStore) ∧
    handle_request (JVal.jobj []) "t" true sampleStore =
      (.error "Unknown action", sampleStore) :=
  ⟨(falsy_request_rejected sampleStore "t" true).1 (JVal.jobj []) rfl,
   (falsy_request_rejected sampleStore "t" true).2.2⟩

/-- Exhaustive case analysis of `sell_tickets`: every call either errors with
the store untouched, or commits with exactly the decrement, the ledger append
and the bumped sale counter. -/
theorem sell_tickets_cases (p : SellPayload) (now : String) (c : Bool)
    (st : Store) :
    ((sell_tickets p now c st).1.isOk = false ∧
      (sell_tickets p now c st).2 = st) ∨
    (∃ mid nm n m,
      p = ⟨some mid, some nm, some n⟩ ∧
      st.movies.find? (fun x => x.id == mid) = some m ∧
      0 < n ∧ n ≤ m.tickets_available ∧
      (sell_tickets p now c st).1.isOk = true ∧
      (sell_tickets p now c st).2.movies =
        st.movies.map (fun x =>
          if x.id == mid then
            { x with tickets_available := x.tickets_available - n }
          else x) ∧
      (sell_tickets p now c st).2.sales =
        st.sales ++
          [⟨st.next_sale_id, mid, nm, n, (n : Rat) * m.ticket_price, now⟩] ∧
      (sell_tickets p now c st).2.next_movie_id = st.next_movie_id ∧
      (sell_tickets p now c st).2.next_sale_id = st.next_sale_id + 1) := by
  obtain ⟨f1, f2, f3⟩ := p
  cases f1 with
  | none => left; exact ⟨rfl, rfl⟩
  | some mid =>
    cases f2 with
    | none => left; exact ⟨rfl, rfl⟩
    | some nm =>
      cases f3 with
      | none => left; exact ⟨rfl, rfl⟩
      | some n =>
        by_cases h1 : n ≤ 0
        · left; constructor <;> simp [sell_tickets, h1, Resp.isOk]
        · rcases hfind : st.movies.find? (fun x => x.id == mid) with _ | m
          · left; constructor <;> simp [sell_tickets, h1, hfind, Resp.isOk]
          · by_cases h2 : m.tickets_available < n
            · left; constructor <;>
                simp [sell_tickets, h1, hfind, h2, Resp.isOk]
            · cases c with
              | false =>
                left; constructor <;>
                  simp [sell_tickets, h1, hfind, h2, Resp.isOk]
              | true =>
                right
                refine ⟨mid, nm, n, m, rfl, hfind, by omega, by omega,
                        ?_, ?_, ?_, ?_, ?_⟩ <;>
                  simp [sell_tickets, h1, hfind, h2, Resp.isOk]

/-- A per-id rewrite keeps ids, hence keeps the id-sorted pairwise order. -/
theorem pairwise_map_id_preserving {l : List Movie} {f : Movie → Movie}
    (hf : ∀ x, (f x).id = x.id)
    (hp : l.Pairwise (fun a b => a.id < b.id)) :
    (l.map f).Pairwise (fun a b => a.id < b.id) := by
  rw [List.pairwise_map]
  exact hp.imp (fun h => by rw [hf, hf]; exact h)

/-- The committed decrement branch of a sale preserves `Store.WF`. -/
theorem sell_tickets_wf (p : SellPayload) (now : String) (c : Bool)
    (st : Store) (hWF : st.WF) : (sell_tickets p now c st).2.WF := by
  rcases sell_tickets_cases p now c st with ⟨_, hst⟩ |
    ⟨mid, nm, n, m, _, _, _, _, _, hmov, _, hnid, _⟩
  · rw [hst]; exact hWF
  · constructor
    · rw [hmov]
      exact pairwise_map_id_preserving
        (fun x => by by_cases hx : x.id == mid <;> simp [hx]) hWF.sorted
    · intro y hy
      rw [hmov] at hy
      rcases List.mem_map.mp hy with ⟨x, hx, hfx⟩
      rw [hnid, ← hfx]
      by_cases hxid : x.id == mid <;> simpa [hxid] using hWF.bounded x hx

/-- On a well-formed non-negative store, a sale never drives any
`tickets_available` negative: the only decremented row is the (unique) row
the availability check just read. -/
theorem sell_tickets_nonneg (p : SellPayload) (now : String) (c : Bool)
    (st : Store) (hWF : st.WF) (hNN : st.NonNeg) :
    (sell_tickets p now c st).2.NonNeg := by
  rcases sell_tickets_cases p now c st with ⟨_, hst⟩ |
    ⟨mid, nm, n, m, _, hfind, hpos, hle, _, hmov, _, _, _⟩
  · rw [hst]; exact hNN
  · intro y hy
    rw [hmov] at hy
    rcases List.mem_map.mp hy with ⟨x, hx, hfx⟩
    have hmmem : m ∈ st.movies := List.mem_of_find?_eq_some hfind
    have hmid : (m.id == mid) = true := by
      simpa using List.find?_some hfind
    by_cases hxid : (x.id == mid) = true
    · have hxm : x = m := by
        apply unique_match hWF.sorted hmmem x hx
        have h1 : x.id = mid := by exact_mod_cast beq_iff_eq.mp hxid
        have h2 : m.id = mid := by exact_mod_cast beq_iff_eq.mp hmid
        rw [h1, h2]
      rw [← hfx]
      simp only [hxid, if_true]
      rw [hxm]
      have := hNN m hmmem
      omega
    · rw [← hfx]
      simp only [hxid, Bool.false_eq_true, if_false]
      exact hNN x hx

/-- C2 counterexample: from the seeded (non-negative) store, an admin update
writing `tickets_available = -1` is accepted with status ok and leaves the
store with a negative availability — `update_movie` applies `int(...)` with
no sign check. -/
theorem update_negative_tickets_cex :
    sampleStore.NonNeg ∧
    (update_movie ⟨some 1, some "The Matrix", some 1, "2025-06-01",
        "2025-06-30", some (-1), some 120⟩ sampleStore).1.isOk = true ∧
    ¬ (update_movie ⟨some 1, some "The Matrix", some 1, "2025-06-01",
        "2025-06-30", some (-1), some 120⟩ sampleStore).2.NonNeg := by
  decide

/-- C2 amended: `list_movies`, `delete_movie` and `sell_tickets` preserve
inventory non-negativity from any well-formed non-negative store, and
`add_movie`/`update_movie` preserve it exactly when the payload's
`tickets_available` is itself non-negative — the code stores the converted
payload value verbatim, so a negative payload value produces a negative
stored availability. -/
theorem ops_preserve_nonneg_amended (st : Store) (hWF : st.WF)
    (hNN : st.NonNeg) :
    (list_movies st).2.NonNeg ∧
    (∀ p : DelPayload, (delete_movie p st).2.NonNeg) ∧
    (∀ (p : SellPayload) (now : String) (c : Bool),
        (sell_tickets p now c st).2.NonNeg) ∧
    (∀ (t : String) (cr : Int) (rd ed : String) (ta : Int) (tp : Rat),
        0 ≤ ta →
        (add_movie ⟨some t, some cr, rd, ed, some ta, some tp⟩ st).2.NonNeg) ∧
    (∀ (i : Int) (t : String) (cr : Int) (rd ed : String) (ta : Int)
        (tp : Rat), 0 ≤ ta →
        (update_movie ⟨some i, some t, some cr, rd, ed, some ta, some tp⟩
            st).2.NonNeg) := by
  refine ⟨hNN, ?_, ?_, ?_, ?_⟩
  · intro p
    obtain ⟨pid⟩ := p
    cases pid with
    | none => exact hNN
    | some i =>
      by_cases h : st.movies.any (fun m => m.id == i) = true
      · intro y hy
        simp only [delete_movie, h, if_true] at hy
        exact hNN y (List.mem_of_mem_filter hy)
      · simpa [delete_movie, h] using hNN
  · intro p now c
    exact sell_tickets_nonneg p now c st hWF hNN
  · intro t cr rd ed ta tp hta y hy
    simp only [add_movie] at hy
    rcases List.mem_append.mp hy with h1 | h2
    · exact hNN y h1
    · rw [List.mem_singleton.mp h2]; exact hta
  · intro i t cr rd ed ta tp hta
    by_cases h : st.movies.any (fun m => m.id == i) = true
    · intro y hy
      simp only [update_movie, h, if_true] at hy
      rcases List.mem_map.mp hy with ⟨x, hx, hfx⟩
      by_cases hxid : (x.id == i) = true
      · rw [← hfx]; simp only [hxid, if_true]; exact hta
      · rw [← hfx]; simp only [hxid, Bool.false_eq_true, if_false]
        exact hNN x hx
    · simpa [update_movie, h] using hNN

/-- Witness for `ops_preserve_nonneg_amended`: a committed sale of 2 tickets
on the seeded store keeps all availabilities non-negative. -/
theorem ops_preserve_nonneg_amended_witness :
    (sell_tickets ⟨some 1, some "Ada", some 2⟩ "t" true sampleStore).2.NonNeg :=
  (ops_preserve_nonneg_amended sampleStore (by decide) (by decide)).2.2.1
    ⟨some 1, some "Ada", some 2⟩ "t" true

/-- C3 counterexample: adding a movie with `ticket_price = -5` is accepted —
the response is exactly `{"status": "ok", "message": "Movie added"}` (no
error, and no id in the response) and the store gains the movie. -/
theorem add_negative_price_cex :
    (add_movie ⟨some "Bad", some 1, "", "", some 10, some (-5)⟩
        sampleStore).1 = .okMsg "Movie added" ∧
    (add_movie ⟨some "Bad", some 1, "", "", some 10, some (-5)⟩
        sampleStore).2 ≠ sampleStore := by
  decide

/-- C3 amended: `add_movie` assigns the fresh AUTOINCREMENT id (unique:
strictly greater than every existing id) to the inserted movie, but on
success replies only with the ok message — the id is not returned; it replies
with an error and leaves the store unchanged whenever a required field access
or an `int(...)`/`float(...)` conversion raises; it performs no sign check,
so a negative `ticket_price` (or `tickets_available`) is inserted. -/
theorem add_movie_fresh_id_amended (st : Store) (hWF : st.WF)
    (t : String) (cr : Int) (rd ed : String) (ta : Int) (tp : Rat) :
    add_movie ⟨some t, some cr, rd, ed, some ta, some tp⟩ st =
      (.okMsg "Movie added",
       { st with
         movies := st.movies ++ [⟨st.next_movie_id, t, cr, rd, ed, ta, tp⟩],
         next_movie_id := st.next_movie_id + 1 }) ∧
    (∀ m ∈ st.movies, m.id ≠ st.next_movie_id) ∧
    (add_movie ⟨some t, some cr, rd, ed, some ta, some tp⟩ st).2.WF ∧
    (∀ p : AddPayload,
        p.title = none ∨ p.cinema_room = none ∨ p.tickets_available = none ∨
          p.ticket_price = none →
        add_movie p st = (.error "invalid request field", st)) := by
  refine ⟨rfl, ?_, ?_, ?_⟩
  · intro m hm
    exact ne_of_lt (hWF.bounded m hm)
  · refine ⟨?_, ?_⟩
    · show (st.movies ++
          [(⟨st.next_movie_id, t, cr, rd, ed, ta, tp⟩ : Movie)]).Pairwise
          (fun a b => a.id < b.id)
      rw [List.pairwise_append]
      refine ⟨hWF.sorted, by simp, ?_⟩
      intro a ha b hb
      rw [List.mem_singleton.mp hb]
      exact hWF.bounded a ha
    · intro m hm
      show m.id < st.next_movie_id + 1
      rcases List.mem_append.mp
        (show m ∈ st.movies ++
            [(⟨st.next_movie_id, t, cr, rd, ed, ta, tp⟩ : Movie)]
          from hm) with h1 | h2
      · have := hWF.bounded m h1; omega
      · rw [List.mem_singleton.mp h2]
        show st.next_movie_id < st.next_movie_id + 1
        omega
  · intro p hp
    obtain ⟨pt, pc, prd, ped, pta, ptp⟩ := p
    cases pt <;> cases pc <;> cases pta <;> cases ptp <;>
      simp_all [add_movie]

/-- Witness for `add_movie_fresh_id_amended`: the reply on the seeded store
is only the ok message. -/
theorem add_movie_fresh_id_amended_witness :
    (add_movie ⟨some "New", some 7, "a", "b", some 10, some 5⟩
        sampleStore).1 = .okMsg "Movie added" :=
  congrArg Prod.fst
    (add_movie_fresh_id_amended sampleStore (by decide) "New" 7 "a" "b" 10 5).1

/-- C8.  On an id that is absent from the store, `update_movie`,
`delete_movie` and `sell_tickets` each fail with their not-found error and
leave the store completely unchanged; on a present id (the store being
well-formed, so the row is unique), `update_movie` replaces exactly the
mutable fields of exactly that row and `delete_movie` removes exactly that
row.  (The sell conjunct assumes a positive ticket count, the data model of a
sale, since `requested <= 0` is rejected earlier with a validation error.) -/
theorem notfound_and_present_ops (st : Store) (now : String) (c : Bool)
    (hWF : st.WF) :
    (∀ i : Int, (∀ m ∈ st.movies, m.id ≠ i) →
      (∀ (t : String) (cr : Int) (rd ed : String) (ta : Int) (tp : Rat),
        update_movie ⟨some i, some t, some cr, rd, ed, some ta, some tp⟩ st =
          (.error "Movie id not found", st)) ∧
      delete_movie ⟨some i⟩ st = (.error "Movie id not found", st) ∧
      (∀ (nm : String) (n : Int), 0 < n →
        sell_tickets ⟨some i, some nm, some n⟩ now c st =
          (.error "Movie not found", st))) ∧
    (∀ (l1 l2 : List Movie) (m : Movie), st.movies = l1 ++ m :: l2 →
      (∀ (t : String) (cr : Int) (rd ed : String) (ta : Int) (tp : Rat),
        update_movie ⟨some m.id, some t, some cr, rd, ed, some ta, some tp⟩
            st =
          (.okMsg "Movie updated",
           { st with movies := l1 ++
               { m with title := t, cinema_room := cr, release_date := rd,
                        end_date := ed, tickets_available := ta,
                        ticket_price := tp } :: l2 })) ∧
      delete_movie ⟨some m.id⟩ st =
        (.okMsg "Movie deleted", { st with movies := l1 ++ l2 })) := by
  constructor
  · intro i hi
    have hany : st.movies.any (fun x => x.id == i) = false := by
      rw [List.any_eq_false]
      intro x hx
      simp [hi x hx]
    have hfind : st.movies.find? (fun x => x.id == i) = none := by
      rw [List.find?_eq_none]
      intro x hx
      simp [hi x hx]
    refine ⟨?_, ?_, ?_⟩
    · intro t cr rd ed ta tp
      simp [update_movie, hany]
    · simp [delete_movie, hany]
    · intro nm n hn
      have : ¬ n ≤ 0 := by omega
      simp [sell_tickets, this, hfind]
  · intro l1 l2 m hsplit
    have hp := hWF.sorted
    rw [hsplit] at hp
    rcases List.pairwise_append.mp hp with ⟨hp1, hp2, hcross⟩
    have hl2 : ∀ b ∈ l2, m.id < b.id := (List.pairwise_cons.mp hp2).1
    have hl1 : ∀ a ∈ l1, a.id < m.id :=
      fun a ha => hcross a ha m (List.mem_cons_self m l2)
    have hl1ne : ∀ x ∈ l1, x.id ≠ m.id := fun x hx => ne_of_lt (hl1 x hx)
    have hl2ne : ∀ x ∈ l2, x.id ≠ m.id :=
      fun x hx => (ne_of_lt (hl2 x hx)).symm
    have hmem : m ∈ st.movies := by
      rw [hsplit]
      exact List.mem_append_right _ (List.mem_cons_self m l2)
    have hany : st.movies.any (fun x => x.id == m.id) = true :=
      List.any_eq_true.mpr ⟨m, hmem, by simp⟩
    constructor
    · intro t cr rd ed ta tp
      have hmap : st.movies.map (fun x =>
          if x.id == m.id then
            { x with title := t, cinema_room := cr, release_date := rd,
                     end_date := ed, tickets_available := ta,
                     ticket_price := tp }
          else x) = l1 ++
            { m with title := t, cinema_room := cr, release_date := rd,
                     end_date := ed, tickets_available := ta,
                     ticket_price := tp } :: l2 := by
        rw [hsplit, List.map_append, map_untouched hl1ne, List.map_cons,
            map_untouched hl2ne]
        simp
      simp only [update_movie, hany, if_true, hmap]
    · have hfilter : st.movies.filter (fun x => !(x.id == m.id)) =
          l1 ++ l2 := by
        rw [hsplit, List.filter_append, filter_untouched hl1ne,
            List.filter_cons]
        simp [filter_untouched hl2ne]
      simp only [delete_movie, hany, if_true, hfilter]

/-- Witness for `notfound_and_present_ops`: deleting absent id 99 errors and
changes nothing; deleting present id 2 removes exactly that row. -/
theorem notfound_and_present_ops_witness :
    delete_movie ⟨some 99⟩ sampleStore =
      (.error "Movie id not found", sampleStore) ∧
    delete_movie ⟨some 2⟩ sampleStore =
      (.okMsg "Movie deleted",
       { sampleStore with
         movies := [⟨1, "The Matrix", 1, "2025-06-01", "2025-06-30",
                     100, 120⟩] ++ [] }) :=
  ⟨((notfound_and_present_ops sampleStore "t" true (by decide)).1 99
      (by decide)).2.1,
   ((notfound_and_present_ops sampleStore "t" true (by decide)).2
      [⟨1, "The Matrix", 1, "2025-06-01", "2025-06-30", 100, 120⟩] []
      ⟨2, "The One", 2, "2025-06-01", "2025-06-30", 100, 120⟩ rfl).2⟩

/-- C9.  Round-trip through the catalog on a well-formed store: after adding
a movie, the listing shows the old rows unchanged plus a record with exactly
the given fields under the fresh id; updating that id makes the listing show
exactly the updated fields with every other row unchanged; deleting it
restores the listing to exactly the original rows; and `list_movies` never
mutates the store, so two reads with no intervening mutation are
identical. -/
theorem add_list_update_delete_roundtrip (st : Store) (hWF : st.WF)
    (t : String) (cr : Int) (rd ed : String) (ta : Int) (tp : Rat)
    (t2 : String) (cr2 : Int) (rd2 ed2 : String) (ta2 : Int) (tp2 : Rat) :
    (list_movies
        (add_movie ⟨some t, some cr, rd, ed, some ta, some tp⟩ st).2).1 =
      .okMovies (st.movies ++ [⟨st.next_movie_id, t, cr, rd, ed, ta, tp⟩]) ∧
    (list_movies
        (update_movie ⟨some st.next_movie_id, some t2, some cr2, rd2, ed2,
            some ta2, some tp2⟩
          (add_movie ⟨some t, some cr, rd, ed, some ta, some tp⟩
            st).2).2).1 =
      .okMovies
        (st.movies ++ [⟨st.next_movie_id, t2, cr2, rd2, ed2, ta2, tp2⟩]) ∧
    (list_movies
        (delete_movie ⟨some st.next_movie_id⟩
          (update_movie ⟨some st.next_movie_id, some t2, some cr2, rd2, ed2,
              some ta2, some tp2⟩
            (add_movie ⟨some t, some cr, rd, ed, some ta, some tp⟩
              st).2).2).2).1 =
      .okMovies st.movies ∧
    (∀ s : Store, list_movies ((list_movies s).2) = list_movies s) := by
  have hne : ∀ x ∈ st.movies, x.id ≠ st.next_movie_id :=
    fun x hx => ne_of_lt (hWF.bounded x hx)
  have hanyAdd :
      ((st.movies ++
          [(⟨st.next_movie_id, t, cr, rd, ed, ta, tp⟩ : Movie)]).any
        (fun x => x.id == st.next_movie_id)) = true :=
    List.any_eq_true.mpr
      ⟨⟨st.next_movie_id, t, cr, rd, ed, ta, tp⟩,
       List.mem_append_right _ (List.mem_cons_self _ _), by simp⟩
  have hmap : ((st.movies ++
        [(⟨st.next_movie_id, t, cr, rd, ed, ta, tp⟩ : Movie)]).map
        (fun x => if x.id == st.next_movie_id then
          { x with title := t2, cinema_room := cr2, release_date := rd2,
                   end_date := ed2, tickets_available := ta2,
                   ticket_price := tp2 }
        else x)) =
      st.movies ++
        [(⟨st.next_movie_id, t2, cr2, rd2, ed2, ta2, tp2⟩ : Movie)] := by
    rw [List.map_append, map_untouched hne]
    simp
  refine ⟨rfl, ?_, ?_, fun s => rfl⟩
  · simp only [add_movie, update_movie, hanyAdd, if_true, hmap]
    rfl
  · have hany2 : ((st.movies ++
        [(⟨st.next_movie_id, t2, cr2, rd2, ed2, ta2, tp2⟩ : Movie)]).any
        (fun x => x.id == st.next_movie_id)) = true :=
      List.any_eq_true.mpr
        ⟨⟨st.next_movie_id, t2, cr2, rd2, ed2, ta2, tp2⟩,
         List.mem_append_right _ (List.mem_cons_self _ _), by simp⟩
    have hfilter : ((st.movies ++
          [(⟨st.next_movie_id, t2, cr2, rd2, ed2, ta2, tp2⟩ : Movie)]).filter
          (fun x => !(x.id == st.next_movie_id))) = st.movies := by
      rw [List.filter_append, filter_untouched hne]
      simp
    simp only [add_movie, update_movie, hanyAdd, if_true, hmap,
               delete_movie, hany2, hfilter]
    rfl

/-- Witness for `add_list_update_delete_roundtrip` on the seeded store. -/
theorem add_list_update_delete_roundtrip_witness :
    (list_movies (delete_movie ⟨some sampleStore.next_movie_id⟩
        (update_movie ⟨some sampleStore.next_movie_id, some "B", some 2, "c",
            "d", some 20, some 7⟩
          (add_movie ⟨some "A", some 1, "a", "b", some 10, some 5⟩
            sampleStore).2).2).2).1 =
      .okMovies sampleStore.movies :=
  (add_list_update_delete_roundtrip sampleStore (by decide)
    "A" 1 "a" "b" 10 5 "B" 2 "c" "d" 20 7).2.2.1

/-- One committed-mode sale against the movie the availability check reads:
it either succeeds (request within availability) leaving that row decremented
by the request, or fails with the insufficient-inventory error leaving the
store untouched.  Well-formedness and non-negativity are preserved either
way. -/
theorem sellT_step (r : SellReq) (now : String) (st : Store) (m : Movie)
    (hWF : st.WF) (hNN : st.NonNeg)
    (hfind : st.movies.find? (fun x => x.id == r.movie_id) = some m)
    (hpos : 1 ≤ r.number_of_tickets) :
    (sellT r now st).2.WF ∧ (sellT r now st).2.NonNeg ∧
    (sellT r now st).2.movies.find? (fun x => x.id == r.movie_id) =
      some (if r.number_of_tickets ≤ m.tickets_available
            then { m with tickets_available :=
                     m.tickets_available - r.number_of_tickets }
            else m) ∧
    ((r.number_of_tickets ≤ m.tickets_available ∧
        (sellT r now st).1.isOk = true) ∨
      (m.tickets_available < r.number_of_tickets ∧
        (sellT r now st).1 =
          .error ("Not enough tickets (available " ++
                  toString m.tickets_available ++ ")") ∧
        (sellT r now st).2 = st)) := by
  have h1 : ¬ r.number_of_tickets ≤ 0 := by omega
  have hmid : (m.id == r.movie_id) = true := by
    simpa using List.find?_some hfind
  refine ⟨sell_tickets_wf _ now true st hWF,
          sell_tickets_nonneg _ now true st hWF hNN, ?_, ?_⟩
  · by_cases hlt : m.tickets_available < r.number_of_tickets
    · have heq : (sellT r now st).2 = st := by
        simp [sellT, sell_tickets, h1, hfind, hlt]
      rw [heq, hfind, if_neg (by omega)]
    · have heq : (sellT r now st).2.movies =
          st.movies.map (fun x =>
            if x.id == r.movie_id then
              { x with tickets_available :=
                  x.tickets_available - r.number_of_tickets }
            else x) := by
        simp [sellT, sell_tickets, h1, hfind, hlt]
      have hpres : ∀ x : Movie,
          (((if x.id == r.movie_id then
              { x with tickets_available :=
                  x.tickets_available - r.number_of_tickets }
            else x)).id == r.movie_id) = (x.id == r.movie_id) := by
        intro x
        by_cases hx : (x.id == r.movie_id) = true <;> simp [hx]
      rw [heq, find?_map_comm hpres, hfind, if_pos (by omega)]
      have hmid2 : m.id = r.movie_id := by simpa using hmid
      simp [hmid2]
  · by_cases hlt : m.tickets_available < r.number_of_tickets
    · right
      refine ⟨hlt, ?_, ?_⟩ <;> simp [sellT, sell_tickets, h1, hfind, hlt]
    · left
      refine ⟨by omega, ?_⟩
      simp [sellT, sell_tickets, h1, hfind, hlt, Resp.isOk]

/-- Running a sequence of positive-count sale requests against one movie:
well-formedness and non-negativity are maintained, the movie's final
availability is its initial availability minus the accepted tickets, and
every response is either ok or the insufficient-inventory error. -/
theorem runSells_spec (now : String) (mid : Int) :
    ∀ (rs : List SellReq) (st : Store) (m0 : Movie),
      st.WF → st.NonNeg →
      st.movies.find? (fun x => x.id == mid) = some m0 →
      (∀ r ∈ rs, r.movie_id = mid ∧ 1 ≤ r.number_of_tickets) →
      (runSells rs now st).2.WF ∧ (runSells rs now st).2.NonNeg ∧
      (∃ mfin,
        (runSells rs now st).2.movies.find? (fun x => x.id == mid) =
          some mfin ∧
        mfin.tickets_available =
          m0.tickets_available -
            acceptedTickets (rs.zip (runSells rs now st).1)) ∧
      (∀ pr ∈ rs.zip (runSells rs now st).1,
        pr.2.isOk = true ∨
        ∃ k : Int,
          pr.2 = .error ("Not enough tickets (available " ++
                         toString k ++ ")")) := by
  intro rs
  induction rs with
  | nil =>
    intro st m0 hWF hNN hfind _
    exact ⟨hWF, hNN, ⟨m0, hfind, by simp [runSells, acceptedTickets]⟩,
           by simp [runSells]⟩
  | cons r rest ih =>
    intro st m0 hWF hNN hfind hall
    have hr := hall r (List.mem_cons_self r rest)
    have hrest : ∀ x ∈ rest, x.movie_id = mid ∧ 1 ≤ x.number_of_tickets :=
      fun x hx => hall x (List.mem_cons_of_mem r hx)
    have hfind1 : st.movies.find? (fun x => x.id == r.movie_id) = some m0 :=
      by rw [hr.1]; exact hfind
    obtain ⟨hWF1, hNN1, hfind2, hstep⟩ :=
      sellT_step r now st m0 hWF hNN hfind1 hr.2
    have hfind2m : (sellT r now st).2.movies.find? (fun x => x.id == mid) =
        some (if r.number_of_tickets ≤ m0.tickets_available
              then { m0 with tickets_available :=
                       m0.tickets_available - r.number_of_tickets }
              else m0) := by rw [← hr.1]; exact hfind2
    have hrun : runSells (r :: rest) now st =
        ((sellT r now st).1 :: (runSells rest now (sellT r now st).2).1,
         (runSells rest now (sellT r now st).2).2) := rfl
    rcases hstep with ⟨hle, hok⟩ | ⟨hlt, herr, hsame⟩
    · obtain ⟨ihWF, ihNN, ⟨mfin, ihfind, ihavail⟩, ihresp⟩ :=
        ih (sellT r now st).2
          { m0 with tickets_available :=
              m0.tickets_available - r.number_of_tickets }
          hWF1 hNN1 (by rw [hfind2m, if_pos hle]) hrest
      rw [hrun]
      refine ⟨ihWF, ihNN, ⟨mfin, ihfind, ?_⟩, ?_⟩
      · rw [List.zip_cons_cons]
        show mfin.tickets_available =
          m0.tickets_available -
            ((if (sellT r now st).1.isOk then r.number_of_tickets else 0) +
              acceptedTickets
                (rest.zip (runSells rest now (sellT r now st).2).1))
        rw [hok, if_pos rfl]
        simp only at ihavail
        omega
      · intro pr hpr
        rw [List.zip_cons_cons] at hpr
        rcases List.mem_cons.mp hpr with hh | ht
        · left; rw [hh]; exact hok
        · exact ihresp pr ht
    · obtain ⟨ihWF, ihNN, ⟨mfin, ihfind, ihavail⟩, ihresp⟩ :=
        ih (sellT r now st).2 m0 hWF1 hNN1
          (by rw [hfind2m, if_neg (by omega)]) hrest
      rw [hrun]
      have hnok : (sellT r now st).1.isOk = false := by
        rw [herr]; rfl
      refine ⟨ihWF, ihNN, ⟨mfin, ihfind, ?_⟩, ?_⟩
      · rw [List.zip_cons_cons]
        show mfin.tickets_available =
          m0.tickets_available -
            ((if (sellT r now st).1.isOk then r.number_of_tickets else 0) +
              acceptedTickets
                (rest.zip (runSells rest now (sellT r now st).2).1))
        rw [hnok]
        simp only [Bool.false_eq_true, if_false] at *
        omega
      · intro pr hpr
        rw [List.zip_cons_cons] at hpr
        rcases List.mem_cons.mp hpr with hh | ht
        · right
          exact ⟨m0.tickets_available, by rw [hh]; exact herr⟩
        · exact ihresp pr ht

/-- C1.  From a well-formed store whose availabilities are non-negative,
no sequence of sales can oversell: availability never goes below zero, a
single sell succeeds only when the request is within the availability it
reads, the accepted requests of any sequence against one movie sum to at most
its initial availability, and every rejected request in such a sequence got
the insufficient-inventory error. -/
theorem inventory_never_oversold (mid : Int) (now : String)
    (rs : List SellReq) (st : Store) (m0 : Movie)
    (hWF : st.WF) (hNN : st.NonNeg)
    (hfind : st.movies.find? (fun x => x.id == mid) = some m0)
    (hall : ∀ r ∈ rs, r.movie_id = mid ∧ 1 ≤ r.number_of_tickets) :
    (runSells rs now st).2.NonNeg ∧
    acceptedTickets (rs.zip (runSells rs now st).1) ≤
      m0.tickets_available ∧
    (∀ pr ∈ rs.zip (runSells rs now st).1, pr.2.isOk = false →
      ∃ k : Int,
        pr.2 = .error ("Not enough tickets (available " ++
                       toString k ++ ")")) ∧
    (∀ (p : SellPayload) (now2 : String) (c : Bool) (st2 : Store),
      (sell_tickets p now2 c st2).1.isOk = true →
      ∃ mid2 nm n m, p = ⟨some mid2, some nm, some n⟩ ∧
        st2.movies.find? (fun x => x.id == mid2) = some m ∧
        0 < n ∧ n ≤ m.tickets_available) := by
  obtain ⟨hWFf, hNNf, ⟨mfin, hfindf, havail⟩, hresp⟩ :=
    runSells_spec now mid rs st m0 hWF hNN hfind hall
  refine ⟨hNNf, ?_, ?_, ?_⟩
  · have hmem : mfin ∈ (runSells rs now st).2.movies :=
      List.mem_of_find?_eq_some hfindf
    have := hNNf mfin hmem
    omega
  · intro pr hpr hnok
    rcases hresp pr hpr with hok | hins
    · rw [hok] at hnok; cases hnok
    · exact hins
  · intro p now2 c st2 hok
    rcases sell_tickets_cases p now2 c st2 with ⟨hf, _⟩ |
      ⟨mid2, nm, n, m, hp, hfind2, hn, hle, _, _, _, _, _⟩
    · rw [hok] at hf; cases hf
    · exact ⟨mid2, nm, n, m, hp, hfind2, hn, hle⟩

/-- Witness for `inventory_never_oversold`: two requests of 60 and 50
tickets against a movie with 100 available accept at most 100 tickets. -/
theorem inventory_never_oversold_witness :
    acceptedTickets
      (([⟨1, "A", 60⟩, ⟨1, "B", 50⟩] : List SellReq).zip
        (runSells [⟨1, "A", 60⟩, ⟨1, "B", 50⟩] "t" sampleStore).1) ≤ 100 :=
  (inventory_never_oversold 1 "t" [⟨1, "A", 60⟩, ⟨1, "B", 50⟩] sampleStore
    ⟨1, "The Matrix", 1, "2025-06-01", "2025-06-30", 100, 120⟩
    (by decide) (by decide) (by decide) (by decide)).2.1

